import Mathlib

/-!
Shallow embedding of the Quits email-scanning core:
the `/api/scan-emails` endpoint (pagination, batch fetch, extraction,
dedup, batched upsert persistence), the `extractSubscriptionData`
heuristic, and the client-side Gmail token guard
(`ensureValidGmailToken`), together with theorems settling the frozen
claims about this code.
-/

namespace Quits

/-- ASCII lowercasing of a string, as the heuristics apply `toLowerCase`
to subject, snippet and sender before matching. -/
def strLower (s : String) : String := String.mk (s.data.map Char.toLower)

/-- `matchAt needle hay` holds when `needle` is an initial segment of `hay`. -/
def matchAt : List Char → List Char → Bool
  | [], _ => true
  | _ :: _, [] => false
  | a :: as, b :: bs => a == b && matchAt as bs

/-- Substring occurrence test on character lists. -/
def containsCL (needle : List Char) : List Char → Bool
  | [] => matchAt needle []
  | c :: cs => matchAt needle (c :: cs) || containsCL needle cs

/-- `containsSub hay needle`: does `hay` contain `needle`,
modelling JavaScript `String.prototype.includes` and the
alternation-of-literals regexes used by the extraction patterns. -/
def containsSub (hay needle : String) : Bool := containsCL needle.data hay.data

/-- Drop a required initial segment, returning the remainder when it matches. -/
def afterPre : List Char → List Char → Option (List Char)
  | [], rest => some rest
  | _ :: _, [] => none
  | a :: as, b :: bs => if a == b then afterPre as bs else none

/-- Characters up to (excluding) the first `>`, modelling the greedy
capture `[^>]+` of the sender-domain regex `/@([^>]+)/`. -/
def takeTilGt : List Char → List Char
  | [] => []
  | c :: cs => if c == '>' then [] else c :: takeTilGt cs

/-- First match of `/@([^>]+)/`: the (non-empty) run of non-`>` characters
after the first `@` that is followed by at least one such character. -/
def domainAfterAt : List Char → Option (List Char)
  | [] => none
  | c :: cs =>
    if c == '@' then
      match takeTilGt cs with
      | [] => domainAfterAt cs
      | d :: ds => some (d :: ds)
    else domainAfterAt cs

/-- Characters before the first `.`, modelling `domain.split('.')[0]`. -/
def takeTilDot : List Char → List Char
  | [] => []
  | c :: cs => if c == '.' then [] else c :: takeTilDot cs

/-- Decimal digit test (regex `\d`). -/
def isDigitCh (c : Char) : Bool := '0' ≤ c && c ≤ '9'

/-- Numeric value of a decimal digit character. -/
def digitVal (c : Char) : Nat := c.toNat - '0'.toNat

/-- Greedy `\d+`: maximal run of leading digits and the rest. -/
def takeDigits : List Char → List Char × List Char
  | [] => ([], [])
  | c :: cs =>
    if isDigitCh c then
      let p := takeDigits cs
      (c :: p.1, p.2)
    else ([], c :: cs)

/-- Whitespace test for the regex `\s`. -/
def isWs (c : Char) : Bool := c == ' ' || c == '\t' || c == '\n' || c == '\r'

/-- Skip `\s*`. -/
def skipWs : List Char → List Char
  | [] => []
  | c :: cs => if isWs c then skipWs cs else c :: cs

/-- Value of a digit run. -/
def digitsToNat (ds : List Char) : Nat := ds.foldl (fun n c => 10 * n + digitVal c) 0

/-- After a currency token, the regex tail `\s*(\d+(?:\.\d{2})?)` parsed as the
decimal number `parseFloat` would produce from the capture; `none` when no
digit follows (the whole alternative fails at this position). -/
def priceTail (cs : List Char) : Option ℚ :=
  let cs1 := skipWs cs
  let p := takeDigits cs1
  if p.1.isEmpty then none
  else
    match p.2 with
    | '.' :: d1 :: d2 :: _ =>
      if isDigitCh d1 && isDigitCh d2 then
        some (mkRat (Int.ofNat (digitsToNat p.1 * 100 + (10 * digitVal d1 + digitVal d2))) 100)
      else some (mkRat (Int.ofNat (digitsToNat p.1)) 1)
    | _ => some (mkRat (Int.ofNat (digitsToNat p.1)) 1)

/-- A currency token `(?:USD|EUR|€|\$)` (text already lowercased) at the head
of the list, returning the remainder. -/
def curAt (cs : List Char) : Option (List Char) :=
  match afterPre ['u', 's', 'd'] cs with
  | some r => some r
  | none =>
    match afterPre ['e', 'u', 'r'] cs with
    | some r => some r
    | none =>
      match afterPre ['€'] cs with
      | some r => some r
      | none => afterPre ['$'] cs

/-- Leftmost match of the price pattern
`/(?:USD|EUR|€|\$)\s*(\d+(?:\.\d{2})?)/i` with the capture parsed as a
decimal, as in `data.price = parseFloat(match[1])`. -/
def firstPrice : List Char → Option ℚ
  | [] => none
  | c :: cs =>
    match curAt (c :: cs) with
    | some rest =>
      match priceTail rest with
      | some q => some q
      | none => firstPrice cs
    | none => firstPrice cs

/-- Keyword alternatives of the subscription pattern
`/subscription|subscribe|membership|plan|netflix|spotify|disney\+|hbo|amazon prime|youtube|premium/i`. -/
def subKeywords : List String :=
  ["subscription", "subscribe", "membership", "plan", "netflix", "spotify",
   "disney+", "hbo", "amazon prime", "youtube", "premium"]

/-- Keyword alternatives of the recurring/billing pattern
`/monthly|yearly|annual|payment|recurring|billing/i`. -/
def recKeywords : List String :=
  ["monthly", "yearly", "annual", "payment", "recurring", "billing"]

/-- Match of the subscription-keyword pattern. -/
def patSubscription (t : String) : Bool := subKeywords.any (fun k => containsSub t k)

/-- Match of the recurring/billing-keyword pattern. -/
def patRecurring (t : String) : Bool := recKeywords.any (fun k => containsSub t k)

/-- Regex `.+needle`: at least one non-newline character, then `needle`. -/
def dotPlusThen (needle : List Char) : List Char → Bool
  | [] => false
  | c :: cs => c != '\n' && (matchAt needle cs || dotPlusThen needle cs)

/-- Match of `your.+subscription` starting at the head of the list. -/
def yourSubAt : List Char → Bool
  | 'y' :: 'o' :: 'u' :: 'r' :: rest => dotPlusThen "subscription".data rest
  | _ => false

/-- Match of `your.+subscription` anywhere. -/
def yourSubAny : List Char → Bool
  | [] => false
  | c :: cs => yourSubAt (c :: cs) || yourSubAny cs

/-- Match of the confirmation pattern
`/your.+subscription|thank you for subscribing|subscription confirmation|payment processed/i`. -/
def patConfirm (t : String) : Bool :=
  yourSubAny t.data || containsSub t "thank you for subscribing" ||
    containsSub t "subscription confirmation" || containsSub t "payment processed"

/-- The `type` values assigned by `extractSubscriptionData`'s pattern table. -/
inductive SType where
  | subscription
  | recurring
  | price
  | confirmation
deriving DecidableEq

/-- The per-message projection built in the scan loop (`emailData`):
id, subject, sender, date and snippet. (`from` is a Lean keyword, so the
field is named `fromAddr`.) -/
structure EmailData where
  id : String
  subject : String
  fromAddr : String
  date : String
  snippet : String
deriving DecidableEq

/-- The record returned by `extractSubscriptionData`; the price is `none`
when no currency-amount pattern matched, the provider is `""` for the
JavaScript `null`/empty ("no provider resolved"), and timestamps are
abstract `Nat` instants (`now` stands for `new Date()`). -/
structure SubData where
  type : Option SType
  price : Option ℚ
  provider : String
  frequency : String
  lastDetectedDate : Nat
deriving DecidableEq

/-- Provider resolution from the sender domain: first label of the domain,
then the chain of special-case `includes` overrides, in source order. -/
def providerFromDomain (d : List Char) : String :=
  let domain := String.mk d
  let p := String.mk (takeTilDot d)
  let p := if containsSub domain "spotify" then "spotify" else p
  let p := if containsSub domain "netflix" then "netflix" else p
  let p := if containsSub domain "youtube" then "youtube" else p
  let p := if containsSub domain "amazon" then "amazon" else p
  let p := if containsSub domain "hbo" then "hbo" else p
  let p := if containsSub domain "disney" then "disney+" else p
  p

/-- Provider fallback from the lowercased subject: the chain of
`includes` checks, in source order (later checks override earlier ones). -/
def providerFromSubject (s : String) : String :=
  let p := ""
  let p := if containsSub s "spotify" then "spotify" else p
  let p := if containsSub s "netflix" then "netflix" else p
  let p := if containsSub s "youtube" then "youtube" else p
  let p := if containsSub s "amazon prime" then "amazon" else p
  let p := if containsSub s "hbo" then "hbo" else p
  let p := if containsSub s "disney+" then "disney+" else p
  p

/-- The combined lowercased text `(subject + " " + snippet).toLowerCase()`
that the pattern table is matched against. -/
def fullTextOf (e : EmailData) : String := strLower (e.subject ++ " " ++ e.snippet)

/-- Embedding of `extractSubscriptionData` (part_001:378-462): provider from
sender domain with alias overrides, subject fallback, the four-pattern
loop unrolled in order (the price pattern sets only `price`; the keyword
patterns set `type` when it is still unset), and the frequency keywords
with `monthly` default. -/
def extractSubscriptionData (now : Nat) (e : EmailData) : SubData :=
  let provider :=
    if e.fromAddr != "" then
      match domainAfterAt (strLower e.fromAddr).data with
      | some d => providerFromDomain d
      | none => ""
    else ""
  let provider :=
    if provider == "" && e.subject != "" then providerFromSubject (strLower e.subject)
    else provider
  let fullText := fullTextOf e
  let ty : Option SType := none
  let ty := if patSubscription fullText && ty.isNone then some SType.subscription else ty
  let ty := if patRecurring fullText && ty.isNone then some SType.recurring else ty
  let price : Option ℚ := firstPrice fullText.data
  let ty := if patConfirm fullText && ty.isNone then some SType.confirmation else ty
  let freq :=
    if containsSub fullText "yearly" || containsSub fullText "annual" then "yearly"
    else if containsSub fullText "monthly" then "monthly"
    else "monthly"
  { type := ty, price := price, provider := provider, frequency := freq,
    lastDetectedDate := now }

/-- How the pattern loop in the source actually assigns `type`: the first
match among the subscription, recurring and confirmation keyword patterns,
in that order — the currency-amount pattern never assigns `type`. -/
def typeFromPatterns (t : String) : Option SType :=
  if patSubscription t then some SType.subscription
  else if patRecurring t then some SType.recurring
  else if patConfirm t then some SType.confirmation
  else none

/-- Modelled from the spec: "the first pattern that matches sets `type`",
with the pattern order subscription, recurring/billing, currency-amount,
confirmation — so a text whose first matching pattern is the
currency-amount one would get type `price`. -/
def specTypeFirstMatch (t : String) : Option SType :=
  if patSubscription t then some SType.subscription
  else if patRecurring t then some SType.recurring
  else if (firstPrice t.data).isSome then some SType.price
  else if patConfirm t then some SType.confirmation
  else none

/-- A Gmail message header (`{name, value}`) as returned by
`users.messages.get` with `format: 'full'`. -/
structure EmailHeader where
  name : String
  value : String
deriving DecidableEq

/-- A fetched message (`result.data`): `payload := none` models a message
whose `payload`/`headers` is absent, so that reading
`details.payload.headers` throws inside the per-message `try`; `snippet`
is optional as in the API (`details.snippet || ''`). -/
structure RawMsg where
  id : String
  payload : Option (List EmailHeader)
  snippet : Option String
deriving DecidableEq

/-- `headers.find(h => h.name === n)?.value || dflt`: the first header named
`n`, with the default applied when the header is missing or its value is
the empty (falsy) string. -/
def headerOr (hs : List EmailHeader) (n dflt : String) : String :=
  match hs.find? (fun h => h.name == n) with
  | some h => if h.value == "" then dflt else h.value
  | none => dflt

/-- Building `emailData` from a fetched message; `none` when reading
`details.payload.headers` throws (absent payload), which the per-message
`catch` turns into skipping the message. -/
def parseMsg (r : RawMsg) : Option EmailData :=
  match r.payload with
  | none => none
  | some hs =>
    some { id := r.id,
           subject := headerOr hs "Subject" "No Subject",
           fromAddr := headerOr hs "From" "Unknown",
           date := headerOr hs "Date" "Unknown",
           snippet := match r.snippet with | none => "" | some s => s }

/-- A row of the `subscriptions` payload pushed by the scan:
`{...subscriptionData, user_id, email_id, created_at, updated_at}`. -/
structure SubRow where
  type : Option SType
  price : Option ℚ
  provider : String
  frequency : String
  lastDetectedDate : Nat
  user_id : String
  email_id : String
  created_at : Nat
  updated_at : Nat
deriving DecidableEq

/-- The subscription row a message would contribute (independent of the
dedup set): `none` when the message is unparseable or resolves to no
provider (falsy `subscriptionData.provider`). -/
def candOf (now : Nat) (uid : String) (r : RawMsg) : Option SubRow :=
  match parseMsg r with
  | none => none
  | some e =>
    let d := extractSubscriptionData now e
    if d.provider == "" then none
    else some { type := d.type, price := d.price, provider := d.provider,
                frequency := d.frequency, lastDetectedDate := d.lastDetectedDate,
                user_id := uid, email_id := e.id, created_at := now, updated_at := now }

/-- One step of the per-message processing loop: parse and extract inside
the `try` (failures skip the message), then push the row only when the
provider is non-empty and not yet in the `processedEmails` set. The state
is the pair (processedEmails as an ordered list, subscriptions). -/
def processMsg (now : Nat) (uid : String) (st : List String × List SubRow) (r : RawMsg) :
    List String × List SubRow :=
  match candOf now uid r with
  | none => st
  | some row =>
    if row.provider ∈ st.1 then st
    else (st.1 ++ [row.provider], st.2 ++ [row])

/-- The per-message loop folded over a list of fetched messages. -/
def processFold (now : Nat) (uid : String) (st : List String × List SubRow)
    (rs : List RawMsg) : List String × List SubRow :=
  rs.foldl (processMsg now uid) st

/-- `Promise.all` over one batch of `gmail.users.messages.get` calls: all
results in listing order, or a failure when any single fetch fails (the
rejection is not caught anywhere inside the batch loop). -/
def fetchAll (fetch : String → Except Unit RawMsg) : List String → Except Unit (List RawMsg)
  | [] => Except.ok []
  | x :: xs =>
    match fetch x with
    | Except.error e => Except.error e
    | Except.ok r =>
      match fetchAll fetch xs with
      | Except.error e => Except.error e
      | Except.ok rs => Except.ok (r :: rs)

/-- The fetched message for an id, with a dummy value on the error case
(used only to describe successful runs). -/
def rawOfFetch (fetch : String → Except Unit RawMsg) (id : String) : RawMsg :=
  match fetch id with
  | Except.ok r => r
  | Except.error _ => { id := "", payload := none, snippet := none }

/-- Whether a fetch resolved (rather than rejected). -/
def exOk : Except Unit RawMsg → Bool
  | Except.ok _ => true
  | Except.error _ => false

/-- The batch loop of `/api/scan-emails` (part_001:534-578): batches are
processed sequentially; a failed `Promise.all` aborts the whole scan,
otherwise the per-message loop folds the batch results into the shared
state. -/
def processBatches (fetch : String → Except Unit RawMsg) (now : Nat) (uid : String) :
    List (List String) → List String × List SubRow → Except Unit (List String × List SubRow)
  | [], st => Except.ok st
  | b :: bs, st =>
    match fetchAll fetch b with
    | Except.error e => Except.error e
    | Except.ok results => processBatches fetch now uid bs (processFold now uid st results)

/-- Fuel-driven slicing loop; the fuel only bounds the recursion depth and
never runs out when it starts at the list's length (each step consumes at
least one element for `1 ≤ n`). -/
def chunksGo (n : Nat) : Nat → List α → List (List α)
  | _, [] => []
  | 0, _ :: _ => []
  | fuel + 1, a :: l => ((a :: l).take n) :: chunksGo n fuel (l.drop (n - 1))

/-- Slices `[i, i+n)` of a list, as produced by the `for` loops stepping by
`batchSize` (`messages.slice(i, i + batchSize)`). -/
def chunks (n : Nat) (l : List α) : List (List α) := chunksGo n l.length l

/-- The pagination `do`/`while` loop (part_001:509-529): the provider serves
pages of up to 100 ids with a next-page token exactly when messages remain;
the loop breaks on an empty page and continues only while a token exists
and fewer than 500 messages have been accumulated. -/
def pageLoop : Nat → List String → List String → List String
  | _, acc, [] => acc
  | 0, acc, _ :: _ => acc
  | fuel + 1, acc, a :: l =>
    let page := (a :: l).take 100
    let acc2 := acc ++ page
    let rest := (a :: l).drop 100
    if rest.isEmpty then acc2
    else if acc2.length < 500 then pageLoop fuel acc2 rest
    else acc2

/-- All message ids listed by the pagination loop for a mailbox whose
matching messages are `ids`, in listing order (the fuel, one unit per page,
never runs out starting from the length of the mailbox). -/
def listMessages (ids : List String) : List String := pageLoop ids.length [] ids

/-- The store's conflict key `(user_id, provider)` (the `onConflict`
columns of the upsert). -/
def sameKey (a b : SubRow) : Bool := a.user_id == b.user_id && a.provider == b.provider

/-- One row of a PostgREST upsert with `onConflict: 'user_id,provider'` and
merge-duplicates resolution (supabase-js `upsert` with its default
`ignoreDuplicates: false`): on conflict every column present in the
payload is overwritten — and the payload built at part_001:564-570
contains all columns, including `created_at` — otherwise the row is
inserted. -/
def upsertRow (rows : List SubRow) (r : SubRow) : List SubRow :=
  if rows.any (fun x => sameKey x r) then rows.map (fun x => if sameKey x r then r else x)
  else rows ++ [r]

/-- One batch upsert call applied to the store. -/
def applyBatch (rows : List SubRow) (b : List SubRow) : List SubRow := b.foldl upsertRow rows

/-- A sequence of batch upserts applied to the store. -/
def applyBatches (rows : List SubRow) (bs : List (List SubRow)) : List SubRow :=
  bs.foldl applyBatch rows

/-- The persistence loop (part_001:580-597): batch `k` either fails — the
external store rejects the call, nothing of that batch is written, and the
`throw` aborts all remaining batches — or is applied whole. Returns the
success flag and the resulting store. -/
def persistBatches (failsOn : Nat → Bool) :
    List (List SubRow) → Nat → List SubRow → Bool × List SubRow
  | [], _, rows => (true, rows)
  | b :: bs, k, rows =>
    if failsOn k then (false, rows)
    else persistBatches failsOn bs (k + 1) (applyBatch rows b)

/-- Outcome of the `gmail.users.getProfile` access test: success, a 401
from Gmail (mapped to a 401 response), or another error (rethrown, so a
500 response). -/
inductive ProfRes where
  | ok
  | auth401
  | otherErr
deriving DecidableEq

/-- The environment of one scan: database connectivity, the profile-test
outcome, the mailbox content, the per-message fetch outcomes, which
persistence batches the store rejects, the prior store rows and the
current instant. -/
structure ScanDeps where
  dbOk : Bool
  profile : ProfRes
  msgIds : List String
  fetchMsg : String → Except Unit RawMsg
  storeFailsOn : Nat → Bool
  store : List SubRow
  now : Nat

/-- The three headers the endpoint validates. -/
structure ScanRequest where
  authHeader : Option String
  gmailToken : Option String
  userId : Option String
deriving DecidableEq

/-- `authHeader?.startsWith('Bearer ')`: false when the header is absent. -/
def bearerOk : Option String → Bool
  | none => false
  | some s => (afterPre ['B', 'e', 'a', 'r', 'e', 'r', ' '] s.data).isSome

/-- JavaScript falsiness of an optional string header (`undefined` or `""`). -/
def strFalsy : Option String → Bool
  | none => true
  | some s => s == ""

/-- The header validation at the top of `/api/scan-emails`
(part_001:465-487), returning the 401 error message when validation
fails. -/
def validateScanHeaders (req : ScanRequest) : Option String :=
  if !(bearerOk req.authHeader) then some "Invalid or missing authentication token"
  else if strFalsy req.gmailToken then some "Missing Gmail token"
  else if strFalsy req.userId then some "Missing user ID"
  else none

/-- The user id used by the scan body (validated non-empty beforehand). -/
def usrId (req : ScanRequest) : String :=
  match req.userId with
  | some u => u
  | none => ""

/-- The observable outcome of one scan request: HTTP status, the `count`
and `subscriptions` fields of the JSON body (empty on errors, whose bodies
carry only an error message), and the resulting store contents. -/
structure ScanResult where
  status : Nat
  count : Nat
  subscriptions : List SubRow
  store : List SubRow
deriving DecidableEq

/-- The `/api/scan-emails` handler (part_001:465-612): header validation,
database connectivity check, Gmail profile test, paginated listing, batch
fetch + extraction + dedup, batched persistence, and the success response
`{success, message, count, subscriptions}` (which carries no price-change
data). Any uncaught error yields the 500 response. -/
def scanEmails (deps : ScanDeps) (req : ScanRequest) : ScanResult :=
  match validateScanHeaders req with
  | some _ => { status := 401, count := 0, subscriptions := [], store := deps.store }
  | none =>
    if !deps.dbOk then { status := 500, count := 0, subscriptions := [], store := deps.store }
    else
      match deps.profile with
      | ProfRes.auth401 => { status := 401, count := 0, subscriptions := [], store := deps.store }
      | ProfRes.otherErr => { status := 500, count := 0, subscriptions := [], store := deps.store }
      | ProfRes.ok =>
        let msgs := listMessages deps.msgIds
        match processBatches deps.fetchMsg deps.now (usrId req) (chunks 10 msgs) ([], []) with
        | Except.error _ => { status := 500, count := 0, subscriptions := [], store := deps.store }
        | Except.ok st =>
          let subs := st.2
          let pr := persistBatches deps.storeFailsOn (chunks 50 subs) 0 deps.store
          if pr.1 then { status := 200, count := subs.length, subscriptions := subs, store := pr.2 }
          else { status := 500, count := 0, subscriptions := [], store := pr.2 }

/-- The candidate row of the first message (in listing order) that resolves
to provider `p`. -/
def firstCandFor (now : Nat) (uid : String) : List RawMsg → String → Option SubRow
  | [], _ => none
  | r :: rs, p =>
    match candOf now uid r with
    | some row => if row.provider == p then some row else firstCandFor now uid rs p
    | none => firstCandFor now uid rs p

/-- The fetched messages of a scan in listing order (meaningful when every
fetch succeeded). -/
def scanRaws (deps : ScanDeps) : List RawMsg :=
  (listMessages deps.msgIds).map (rawOfFetch deps.fetchMsg)

/-- Browser storage state used by `ensureValidGmailToken`
(googleAuth.ts:91-149): the session-stored access token and its expiry
instant (milliseconds), and the locally stored refresh token. -/
structure TokenState where
  gmailToken : Option String
  gmailTokenExpiry : Option Nat
  refreshTok : Option String
deriving DecidableEq

/-- Outcome of the refresh call `POST /auth/google/refresh`: a non-ok HTTP
response, a thrown network error, or an ok response carrying an optional
`access_token` and optional `expires_in` (seconds). -/
inductive RefreshOutcome where
  | httpErr
  | netThrow
  | ok (accessToken : Option String) (expiresIn : Option Nat)
deriving DecidableEq

/-- `Date.now() > parseInt(gmailTokenExpiry)` guarded by the truthiness of
the stored expiry string: false when no expiry is recorded. -/
def expiredAt (now : Nat) : Option Nat → Bool
  | some e => decide (e < now)
  | none => false

/-- The refresh condition of googleAuth.ts:102:
`!gmailToken || (gmailTokenExpiry && Date.now() > parseInt(gmailTokenExpiry))`. -/
def refreshNeeded (now : Nat) (st : TokenState) : Bool :=
  strFalsy st.gmailToken || expiredAt now st.gmailTokenExpiry

/-- `tokenData.expires_in || 3600`: the provider value, with the default
3600 seconds applied when it is absent (or the falsy 0). -/
def effExpiresIn : Option Nat → Nat
  | none => 3600
  | some n => if n == 0 then 3600 else n

/-- Embedding of `ensureValidGmailToken` (googleAuth.ts:91-149): refresh
only under `refreshNeeded`; without a refresh token fail; on a non-ok
refresh response clear the refresh token and fail; on a missing
access token or a thrown fetch fail without touching storage; otherwise
store the new token with expiry `now + (expires_in || 3600) * 1000`. -/
def ensureValidGmailToken (now : Nat) (st : TokenState) (res : RefreshOutcome) :
    Bool × TokenState :=
  if refreshNeeded now st then
    match st.refreshTok with
    | none => (false, st)
    | some _ =>
      match res with
      | RefreshOutcome.httpErr => (false, { st with refreshTok := none })
      | RefreshOutcome.netThrow => (false, st)
      | RefreshOutcome.ok tok exp =>
        match tok with
        | none => (false, st)
        | some t =>
          (true, { st with gmailToken := some t,
                           gmailTokenExpiry := some (now + effExpiresIn exp * 1000) })
  else (true, st)

/-- A price change as typed on the client (api.ts): old and new price, their
difference and the percentage difference. (`renewal_date`, a wall-clock
`Date`, is omitted.) -/
structure PriceChange where
  provider : String
  oldPrice : ℚ
  newPrice : ℚ
  change : ℚ
  percentageChange : ℚ
  term_months : Nat
deriving DecidableEq

/-- The single mock entry of api.ts:403-413: Adobe 49.99 → 52.99,
change 3.00, percentageChange 6.0. -/
def mockAdobe : PriceChange :=
  { provider := "Adobe", oldPrice := 4999 / 100, newPrice := 5299 / 100,
    change := 3, percentageChange := 6, term_months := 12 }

/-- The hard-coded `MOCK_PRICE_CHANGES` constant of api.ts:403-413 — the
only price-change values anywhere in the repository. -/
def MOCK_PRICE_CHANGES : List PriceChange := [mockAdobe]

/-- Modelled from the spec: rounding to 2 decimal places, used by the
spec's percentage-change formula `change / oldPrice * 100` (no rounding
or price-change computation exists in the scanning backend). -/
def round2 (x : ℚ) : ℚ := ((⌊x * 100 + 1 / 2⌋ : ℤ) : ℚ) / 100

/-- The price changes contained in a scan response. The response object
built at part_001:599-604 has exactly the fields `success`, `message`,
`count` and `subscriptions`; it carries no price-change data, so every
scan response contains the empty list of price changes. -/
def scanPriceChanges (_ : ScanResult) : List PriceChange := []

/-- A simple fetched message with a Subject and a From header. -/
def mkRaw (id fromA subj : String) : RawMsg :=
  { id := id,
    payload := some [{ name := "Subject", value := subj }, { name := "From", value := fromA }],
    snippet := some "" }

/-- A request carrying all three required headers. -/
def reqOk : ScanRequest :=
  { authHeader := some "Bearer tok", gmailToken := some "g", userId := some "u" }

/-- Fetch outcomes of a 3-message mailbox in which only message `"b"`
fails to fetch. -/
def fetchCex1 : String → Except Unit RawMsg := fun id =>
  if id == "b" then Except.error ()
  else if id == "a" then Except.ok (mkRaw "a" "billing@netflix.com" "Netflix subscription")
  else Except.ok (mkRaw "c" "info@spotify.com" "Spotify payment")

/-- A healthy scan environment over that mailbox. -/
def depsCex1 : ScanDeps :=
  { dbOk := true, profile := ProfRes.ok, msgIds := ["a", "b", "c"], fetchMsg := fetchCex1,
    storeFailsOn := fun _ => false, store := [], now := 0 }

/-- Fetch outcomes of a 10-message batch in which message `"m7"` fetches
fine but is unparseable (absent payload). -/
def fetchW1 : String → Except Unit RawMsg := fun id =>
  if id == "m7" then Except.ok { id := id, payload := none, snippet := none }
  else Except.ok (mkRaw id ("x@" ++ id ++ ".com") "hello")

/-- A healthy scan environment over that 10-message mailbox. -/
def depsW1 : ScanDeps :=
  { dbOk := true, profile := ProfRes.ok,
    msgIds := ["m1", "m2", "m3", "m4", "m5", "m6", "m7", "m8", "m9", "m10"],
    fetchMsg := fetchW1, storeFailsOn := fun _ => false, store := [], now := 7 }

/-- Fetch outcomes with two messages resolving to provider netflix and a
third to spotify. -/
def fetchW2 : String → Except Unit RawMsg := fun id =>
  if id == "a" then Except.ok (mkRaw "a" "billing@netflix.com" "Netflix subscription receipt")
  else if id == "b" then Except.ok (mkRaw "b" "info@netflix.com" "Your netflix payment $9.99")
  else Except.ok (mkRaw "c" "news@spotify.com" "Spotify monthly")

/-- A healthy scan environment over that mailbox. -/
def depsW2 : ScanDeps :=
  { dbOk := true, profile := ProfRes.ok, msgIds := ["a", "b", "c"], fetchMsg := fetchW2,
    storeFailsOn := fun _ => false, store := [], now := 3 }

/-- The row the scan derives from the first netflix message of `depsW2`. -/
def rowNetflixW : SubRow :=
  { type := some SType.subscription, price := none, provider := "netflix",
    frequency := "monthly", lastDetectedDate := 3, user_id := "u", email_id := "a",
    created_at := 3, updated_at := 3 }

/-- A previously stored subscription row: netflix at price 9.99. -/
def rowOld3 : SubRow :=
  { type := none, price := some (mkRat 999 100), provider := "netflix",
    frequency := "monthly", lastDetectedDate := 1, user_id := "u", email_id := "e0",
    created_at := 1, updated_at := 1 }

/-- A newly detected candidate for the same (user, provider) at price
15.99, carrying its own (later) `created_at`. -/
def rowNew3 : SubRow :=
  { type := some SType.subscription, price := some (mkRat 1599 100), provider := "netflix",
    frequency := "monthly", lastDetectedDate := 9, user_id := "u", email_id := "e1",
    created_at := 9, updated_at := 9 }

/-- A scan environment whose store already holds netflix at 9.99 and whose
single message yields a netflix candidate at 15.99. -/
def depsC6 : ScanDeps :=
  { dbOk := true, profile := ProfRes.ok, msgIds := ["m1"],
    fetchMsg := fun _ =>
      Except.ok (mkRaw "m1" "billing@netflix.com" "Your Netflix subscription receipt — $15.99"),
    storeFailsOn := fun _ => false, store := [rowOld3], now := 5 }

/-- A numbered subscription row with a distinct one-letter provider. -/
def rowIdx (i : Nat) : SubRow :=
  { type := none, price := none, provider := String.mk [Char.ofNat (65 + i)],
    frequency := "monthly", lastDetectedDate := 0, user_id := "u", email_id := "",
    created_at := 0, updated_at := 0 }

/-- 51 candidate rows, so that the 50-row batching produces two batches. -/
def rows51 : List SubRow := (List.range 51).map rowIdx

/-- A store that rejects exactly the second batch (index 1). -/
def fails1 : Nat → Bool := fun k => k == 1

/-- A token state with an access token present but no recorded expiry. -/
def stC5 : TokenState :=
  { gmailToken := some "tok", gmailTokenExpiry := none, refreshTok := some "r" }

/-- A token state with no access token and a refresh token available. -/
def stW5 : TokenState :=
  { gmailToken := none, gmailTokenExpiry := none, refreshTok := some "r" }

/-- A message whose text matches only the currency-amount and confirmation
patterns (in that pattern-table order). -/
def emailC8 : EmailData :=
  { id := "m", subject := "Thank you for subscribing", fromAddr := "info@acme.com",
    date := "", snippet := "$5.99" }

/-- The spec's worked example message: netflix receipt at $15.99. -/
def emailC9 : EmailData :=
  { id := "m1", subject := "Your Netflix subscription receipt — $15.99",
    fromAddr := "billing@netflix.com", date := "", snippet := "" }

/-- A request with the `x-gmail-token` header missing. -/
def reqBad10 : ScanRequest :=
  { authHeader := some "Bearer tok", gmailToken := none, userId := some "u" }

end Quits

namespace Quits

theorem chunksGo_flatten {α : Type} (n : Nat) (hn : 0 < n) :
    ∀ (fuel : Nat) (l : List α), l.length ≤ fuel → (chunksGo n fuel l).flatten = l := by
  intro fuel
  induction fuel with
  | zero =>
    intro l hl
    cases l with
    | nil => simp [chunksGo]
    | cons a t => simp at hl
  | succ fuel ih =>
    intro l hl
    cases l with
    | nil => simp [chunksGo]
    | cons a t =>
      obtain ⟨m, rfl⟩ : ∃ m, n = m + 1 := ⟨n - 1, by omega⟩
      have ht : (t.drop m).length ≤ fuel := by
        have hd := List.length_drop m t
        simp only [List.length_cons] at hl
        omega
      simp only [chunksGo, Nat.add_sub_cancel, List.flatten_cons, ih (t.drop m) ht,
        List.take_succ_cons, List.cons_append, List.take_append_drop]

/-- Concatenating the batch slices gives back the original list. -/
theorem chunks_flatten {α : Type} (n : Nat) (hn : 0 < n) (l : List α) :
    (chunks n l).flatten = l :=
  chunksGo_flatten n hn l.length l le_rfl

theorem pageLoop_spec :
    ∀ (fuel : Nat) (rem acc : List String), rem.length ≤ 100 * fuel →
      acc.length % 100 = 0 → acc.length ≤ 400 →
      pageLoop fuel acc rem = acc ++ rem.take (500 - acc.length) := by
  intro fuel
  induction fuel with
  | zero =>
    intro rem acc hlen hmod hle
    cases rem with
    | nil => simp [pageLoop]
    | cons a t => simp at hlen
  | succ fuel ih =>
    intro rem acc hlen hmod hle
    cases rem with
    | nil => simp [pageLoop]
    | cons a t =>
      simp only [pageLoop]
      cases hrest : ((a :: t).drop 100).isEmpty with
      | true =>
        have hlen100 : (a :: t).length ≤ 100 := by
          rw [List.isEmpty_iff] at hrest
          have hd := List.length_drop 100 (a :: t)
          rw [hrest] at hd
          simp only [List.length_nil] at hd
          omega
        have h1 : (a :: t).take 100 = a :: t := List.take_of_length_le hlen100
        have h2 : (a :: t).take (500 - acc.length) = a :: t := by
          apply List.take_of_length_le
          omega
        simp only [h1, h2]
        simp
      | false =>
        have hgt : 100 < (a :: t).length := by
          by_contra hc
          push_neg at hc
          have hd : (a :: t).drop 100 = [] := List.drop_eq_nil_of_le hc
          rw [hd] at hrest
          simp at hrest
        have hpage : ((a :: t).take 100).length = 100 := by
          rw [List.length_take]
          omega
        have hacc2 : (acc ++ (a :: t).take 100).length = acc.length + 100 := by
          rw [List.length_append, hpage]
        simp only [Bool.false_eq_true, if_false]
        by_cases hcap : (acc ++ (a :: t).take 100).length < 500
        · have hrec := ih ((a :: t).drop 100) (acc ++ (a :: t).take 100)
            (by rw [List.length_drop]; omega)
            (by rw [hacc2]; omega)
            (by rw [hacc2]; rw [hacc2] at hcap; omega)
          rw [if_pos hcap, hrec, hacc2, List.append_assoc]
          congr 1
          have heq : 500 - acc.length = 100 + (500 - (acc.length + 100)) := by omega
          rw [heq, List.take_add]
        · rw [if_neg hcap]
          rw [hacc2] at hcap
          have hacc400 : acc.length = 400 := by omega
          congr 1
          have h100 : 500 - acc.length = 100 := by omega
          rw [h100]

/-- The pagination loop returns exactly the first 500 listed messages. -/
theorem listMessages_take (ids : List String) : listMessages ids = ids.take 500 := by
  have h := pageLoop_spec ids.length ids [] (by omega) (by simp) (by simp)
  simpa [listMessages] using h

theorem fetchAll_ok (fetch : String → Except Unit RawMsg) :
    ∀ (b : List String) (rs : List RawMsg), fetchAll fetch b = Except.ok rs →
      rs = b.map (rawOfFetch fetch) ∧ ∀ id ∈ b, exOk (fetch id) = true := by
  intro b
  induction b with
  | nil =>
    intro rs h
    simp [fetchAll] at h
    simp [h]
  | cons x xs ih =>
    intro rs h
    simp only [fetchAll] at h
    cases hx : fetch x with
    | error e => rw [hx] at h; exact absurd h (by simp)
    | ok r =>
      rw [hx] at h
      cases hxs : fetchAll fetch xs with
      | error e => rw [hxs] at h; exact absurd h (by simp)
      | ok rs2 =>
        rw [hxs] at h
        simp only [Except.ok.injEq] at h
        obtain ⟨h1, h2⟩ := ih rs2 hxs
        constructor
        · rw [← h]
          simp [List.map_cons, rawOfFetch, hx, h1]
        · intro id hid
          rcases List.mem_cons.mp hid with rfl | hid2
          · simp [hx, exOk]
          · exact h2 id hid2

theorem fetchAll_of_all_ok (fetch : String → Except Unit RawMsg) :
    ∀ (b : List String), (∀ id ∈ b, exOk (fetch id) = true) →
      fetchAll fetch b = Except.ok (b.map (rawOfFetch fetch)) := by
  intro b
  induction b with
  | nil => intro _; simp [fetchAll]
  | cons x xs ih =>
    intro hall
    have hx := hall x (List.mem_cons_self x xs)
    cases hfx : fetch x with
    | error e => rw [hfx] at hx; simp [exOk] at hx
    | ok r =>
      simp only [fetchAll, hfx]
      rw [ih (fun id hid => hall id (List.mem_cons_of_mem x hid))]
      simp [rawOfFetch, hfx]

theorem processFold_append (now : Nat) (uid : String) (st : List String × List SubRow)
    (xs ys : List RawMsg) :
    processFold now uid st (xs ++ ys) = processFold now uid (processFold now uid st xs) ys := by
  simp [processFold]

theorem processBatches_ok (fetch : String → Except Unit RawMsg) (now : Nat) (uid : String) :
    ∀ (bs : List (List String)) (st st' : List String × List SubRow),
      processBatches fetch now uid bs st = Except.ok st' →
      st' = processFold now uid st ((bs.flatten).map (rawOfFetch fetch)) ∧
        ∀ id ∈ bs.flatten, exOk (fetch id) = true := by
  intro bs
  induction bs with
  | nil =>
    intro st st' h
    simp [processBatches] at h
    simp [processFold, h]
  | cons b bs ih =>
    intro st st' h
    simp only [processBatches] at h
    cases hb : fetchAll fetch b with
    | error e => rw [hb] at h; exact absurd h (by simp)
    | ok results =>
      rw [hb] at h
      obtain ⟨hres, hok⟩ := fetchAll_ok fetch b results hb
      obtain ⟨h1, h2⟩ := ih _ _ h
      constructor
      · rw [h1, hres]
        simp only [List.flatten_cons, List.map_append, processFold_append]
      · intro id hid
        rw [List.flatten_cons, List.mem_append] at hid
        rcases hid with hid | hid
        · exact hok id hid
        · exact h2 id hid

theorem processBatches_of_all_ok (fetch : String → Except Unit RawMsg) (now : Nat)
    (uid : String) :
    ∀ (bs : List (List String)) (st : List String × List SubRow),
      (∀ id ∈ bs.flatten, exOk (fetch id) = true) →
      processBatches fetch now uid bs st =
        Except.ok (processFold now uid st ((bs.flatten).map (rawOfFetch fetch))) := by
  intro bs
  induction bs with
  | nil => intro st _; simp [processBatches, processFold]
  | cons b bs ih =>
    intro st hall
    have hb : ∀ id ∈ b, exOk (fetch id) = true := by
      intro id hid
      exact hall id (by rw [List.flatten_cons, List.mem_append]; exact Or.inl hid)
    simp only [processBatches, fetchAll_of_all_ok fetch b hb]
    rw [ih _ (fun id hid =>
      hall id (by rw [List.flatten_cons, List.mem_append]; exact Or.inr hid))]
    simp only [List.flatten_cons, List.map_append, processFold_append]

theorem processFold_cons (now : Nat) (uid : String) (st : List String × List SubRow)
    (r : RawMsg) (rs : List RawMsg) :
    processFold now uid st (r :: rs) = processFold now uid (processMsg now uid st r) rs := rfl

theorem fold_inv (now : Nat) (uid : String) :
    ∀ (rs : List RawMsg) (st : List String × List SubRow),
      st.1 = st.2.map (fun x => x.provider) → st.1.Nodup →
      ((processFold now uid st rs).1 =
        (processFold now uid st rs).2.map (fun x => x.provider)) ∧
      (processFold now uid st rs).1.Nodup ∧
      (∀ row ∈ (processFold now uid st rs).2,
        row ∈ st.2 ∨
          (row.provider ∉ st.1 ∧ firstCandFor now uid rs row.provider = some row)) := by
  intro rs
  induction rs with
  | nil =>
    intro st h1 h2
    exact ⟨h1, h2, fun row hr => Or.inl hr⟩
  | cons r rs ih =>
    intro st h1 h2
    rw [processFold_cons]
    cases hc : candOf now uid r with
    | none =>
      have hst : processMsg now uid st r = st := by simp [processMsg, hc]
      rw [hst]
      obtain ⟨i1, i2, i3⟩ := ih st h1 h2
      refine ⟨i1, i2, fun row hr => ?_⟩
      rcases i3 row hr with h | ⟨hnp, hf⟩
      · exact Or.inl h
      · exact Or.inr ⟨hnp, by simp [firstCandFor, hc, hf]⟩
    | some c =>
      by_cases hm : c.provider ∈ st.1
      · have hst : processMsg now uid st r = st := by simp [processMsg, hc, hm]
        rw [hst]
        obtain ⟨i1, i2, i3⟩ := ih st h1 h2
        refine ⟨i1, i2, fun row hr => ?_⟩
        rcases i3 row hr with h | ⟨hnp, hf⟩
        · exact Or.inl h
        · refine Or.inr ⟨hnp, ?_⟩
          have hne : c.provider ≠ row.provider := fun he => hnp (he ▸ hm)
          simp [firstCandFor, hc, beq_iff_eq, hne, hf]
      · have hst : processMsg now uid st r = (st.1 ++ [c.provider], st.2 ++ [c]) := by
          simp [processMsg, hc, hm]
        rw [hst]
        have h1a : st.1 ++ [c.provider] = (st.2 ++ [c]).map (fun x => x.provider) := by
          simp [h1]
        have h2a : (st.1 ++ [c.provider]).Nodup := by
          rw [List.nodup_append]
          refine ⟨h2, List.nodup_singleton _, ?_⟩
          intro a ha hb
          rw [List.mem_singleton] at hb
          subst hb
          exact hm ha
        obtain ⟨i1, i2, i3⟩ := ih (st.1 ++ [c.provider], st.2 ++ [c]) h1a h2a
        refine ⟨i1, i2, fun row hr => ?_⟩
        rcases i3 row hr with h | ⟨hnp, hf⟩
        · rcases List.mem_append.mp h with h | h
          · exact Or.inl h
          · have hrc : row = c := by simpa using h
            subst hrc
            refine Or.inr ⟨hm, ?_⟩
            simp [firstCandFor, hc]
        · refine Or.inr ⟨fun hmem => hnp (List.mem_append.mpr (Or.inl hmem)), ?_⟩
          have hne : c.provider ≠ row.provider := by
            intro he
            exact hnp (List.mem_append.mpr (Or.inr (by simp [he])))
          simp [firstCandFor, hc, beq_iff_eq, hne, hf]

theorem persistBatches_all_ok (failsOn : Nat → Bool) (h : ∀ k, failsOn k = false) :
    ∀ (bs : List (List SubRow)) (i : Nat) (rows : List SubRow),
      persistBatches failsOn bs i rows = (true, applyBatches rows bs) := by
  intro bs
  induction bs with
  | nil => intro i rows; simp [persistBatches, applyBatches]
  | cons b bs ih =>
    intro i rows
    simp only [persistBatches, h i, if_false]
    rw [ih (i + 1) (applyBatch rows b)]
    simp [applyBatches]

theorem persistBatches_fail_aux (failsOn : Nat → Bool) :
    ∀ (bs : List (List SubRow)) (k i : Nat) (rows : List SubRow),
      failsOn (i + k) = true → (∀ j, j < k → failsOn (i + j) = false) → k < bs.length →
      persistBatches failsOn bs i rows = (false, applyBatches rows (bs.take k)) := by
  intro bs
  induction bs with
  | nil =>
    intro k i rows _ _ hlen
    simp at hlen
  | cons b bs ih =>
    intro k i rows hk hmin hlen
    cases k with
    | zero =>
      simp only [Nat.add_zero] at hk
      simp [persistBatches, hk, applyBatches]
    | succ k2 =>
      have h0 : failsOn i = false := by
        have := hmin 0 (Nat.succ_pos k2)
        simpa using this
      simp only [persistBatches, h0, if_false]
      rw [ih k2 (i + 1) (applyBatch rows b)]
      · simp [applyBatches]
      · have : i + 1 + k2 = i + (k2 + 1) := by omega
        rw [this]
        exact hk
      · intro j hj
        have : i + 1 + j = i + (j + 1) := by omega
        rw [this]
        exact hmin (j + 1) (by omega)
      · simp only [List.length_cons] at hlen
        omega

/-- C4: the pagination loop stops exactly when the provider has no further
page or the cumulative count reaches the 500 ceiling, so it lists exactly
the first 500 matching messages — `min ids.length 500` many — and a mailbox
with exactly 501 matching messages yields 500 processed messages. -/
theorem scan_pagination_caps_at_500 (ids : List String) :
    listMessages ids = ids.take 500 ∧
    (listMessages ids).length = min ids.length 500 ∧
    (ids.length = 501 → (listMessages ids).length = 500) := by
  refine ⟨listMessages_take ids, ?_, ?_⟩
  · rw [listMessages_take, List.length_take, Nat.min_comm]
  · intro h
    rw [listMessages_take, List.length_take, h]
    omega

/-- C4 witness: a mailbox of exactly 501 matching messages yields exactly
500 listed messages. -/
theorem scan_pagination_caps_at_500_witness :
    (List.replicate 501 "m").length = 501 ∧
    (listMessages (List.replicate 501 "m")).length = 500 :=
  ⟨by rw [List.length_replicate],
   (scan_pagination_caps_at_500 (List.replicate 501 "m")).2.2 (by rw [List.length_replicate])⟩

/-- C7: with candidates persisted in batches of 50, the first failing batch
surfaces the store error and aborts all remaining batches, while the
batches written before it remain written (no rollback). -/
theorem persist_batch_failure_aborts_rest (failsOn : Nat → Bool) (subs rows : List SubRow)
    (k : Nat) (hk : failsOn k = true) (hmin : ∀ j, j < k → failsOn j = false)
    (hlen : k < (chunks 50 subs).length) :
    persistBatches failsOn (chunks 50 subs) 0 rows =
      (false, applyBatches rows ((chunks 50 subs).take k)) :=
  persistBatches_fail_aux failsOn (chunks 50 subs) k 0 rows (by simpa using hk)
    (fun j hj => by simpa using hmin j hj) hlen

/-- C7 witness: 51 candidates make two batches; the store failing on the
second batch leaves exactly the first batch written and surfaces the
error. -/
theorem persist_batch_failure_aborts_rest_witness :
    fails1 1 = true ∧
    persistBatches fails1 (chunks 50 rows51) 0 [] =
      (false, applyBatches [] ((chunks 50 rows51).take 1)) :=
  ⟨rfl, persist_batch_failure_aborts_rest fails1 rows51 [] 1 rfl (by decide) (by decide)⟩

/-- C3 counterexample: an upsert conflicting on (userId, provider) also
overwrites `created_at` — the existing row's `created_at` (1) is replaced
by the new candidate's (9), contradicting "createdAt is preserved
unchanged". -/
theorem upsert_overwrites_created_at :
    sameKey rowOld3 rowNew3 = true ∧ rowOld3.created_at = 1 ∧ rowNew3.created_at = 9 ∧
    upsertRow [rowOld3] rowNew3 = [rowNew3] ∧
    (∀ x ∈ upsertRow [rowOld3] rowNew3, x.created_at ≠ rowOld3.created_at) := by
  decide

/-- C3 (amended): on a (userId, provider) conflict the upsert overwrites
every payload column of the existing row — price, frequency,
lastDetectedDate, updatedAt and also createdAt, since the scan includes
`created_at` in the payload — leaving the other rows unchanged and the
row count the same. -/
theorem upsert_conflict_overwrites_all_columns (rows : List SubRow) (r : SubRow)
    (hc : rows.any (fun x => sameKey x r) = true) :
    (upsertRow rows r).length = rows.length ∧
    (∀ x ∈ upsertRow rows r, sameKey x r = true → x = r) ∧
    (∀ x ∈ upsertRow rows r, sameKey x r = false → x ∈ rows) ∧
    r ∈ upsertRow rows r := by
  unfold upsertRow
  rw [if_pos hc]
  refine ⟨List.length_map rows _, ?_, ?_, ?_⟩
  · intro x hx hkey
    obtain ⟨y, hy, hxy⟩ := List.mem_map.mp hx
    by_cases hky : sameKey y r = true
    · rw [if_pos hky] at hxy
      exact hxy.symm
    · rw [if_neg hky] at hxy
      subst hxy
      exact absurd hkey hky
  · intro x hx hkey
    obtain ⟨y, hy, hxy⟩ := List.mem_map.mp hx
    by_cases hky : sameKey y r = true
    · rw [if_pos hky] at hxy
      subst hxy
      have hrr : sameKey r r = true := by simp [sameKey]
      rw [hrr] at hkey
      simp at hkey
    · rw [if_neg hky] at hxy
      subst hxy
      exact hy
  · obtain ⟨y, hy, hpy⟩ := List.any_eq_true.mp hc
    exact List.mem_map.mpr ⟨y, hy, by rw [if_pos hpy]⟩

/-- C3 witness: at the concrete conflicting pair, the upsert keeps the row
count and the stored row becomes the new candidate. -/
theorem upsert_conflict_overwrites_all_columns_witness :
    (upsertRow [rowOld3] rowNew3).length = 1 ∧ rowNew3 ∈ upsertRow [rowOld3] rowNew3 :=
  ⟨(upsert_conflict_overwrites_all_columns [rowOld3] rowNew3 (by decide)).1,
   (upsert_conflict_overwrites_all_columns [rowOld3] rowNew3 (by decide)).2.2.2⟩

/-- C5 counterexample: with an access token present but no recorded expiry
(and a refresh token and a usable refresh response available),
`ensureValidGmailToken` performs no refresh and returns the state
unchanged — contradicting "refreshes when expiresAt is absent". -/
theorem ensure_valid_no_refresh_when_expiry_absent :
    stC5.gmailToken = some "tok" ∧ stC5.gmailTokenExpiry = none ∧
    stC5.refreshTok = some "r" ∧
    ensureValidGmailToken 1000 stC5 (RefreshOutcome.ok (some "new") (some 1800)) =
      (true, stC5) := by
  decide

/-- C5 (amended): the token is refreshed exactly when it is absent (or
empty) or its expiry is recorded and in the past — a token without a
recorded expiry is treated as valid — and a successful refresh stores
expiry `now + expiresIn * 1000` with `expiresIn` defaulting to 3600 when
the provider omits it. -/
theorem ensure_valid_refresh_behavior (now : Nat) (st : TokenState) (res : RefreshOutcome) :
    (refreshNeeded now st = false → ensureValidGmailToken now st res = (true, st)) ∧
    (∀ rt t exp, refreshNeeded now st = true → st.refreshTok = some rt →
      res = RefreshOutcome.ok (some t) exp →
      ensureValidGmailToken now st res =
        (true, { st with gmailToken := some t,
                         gmailTokenExpiry := some (now + effExpiresIn exp * 1000) })) ∧
    effExpiresIn none = 3600 := by
  refine ⟨?_, ?_, rfl⟩
  · intro h
    simp [ensureValidGmailToken, h]
  · intro rt t exp h1 h2 h3
    subst h3
    simp [ensureValidGmailToken, h1, h2]

/-- C5 witness: with no token stored, a successful refresh with omitted
`expires_in` stores expiry `now + 3600 * 1000`. -/
theorem ensure_valid_refresh_behavior_witness :
    ensureValidGmailToken 5000 stW5 (RefreshOutcome.ok (some "n") none) =
      (true, { stW5 with gmailToken := some "n",
                         gmailTokenExpiry := some (5000 + 3600 * 1000) }) :=
  (ensure_valid_refresh_behavior 5000 stW5 (RefreshOutcome.ok (some "n") none)).2.1
    "r" "n" none (by decide) (by decide) rfl

/-- C8 counterexample: on a text whose first matching pattern is the
currency-amount one ("Thank you for subscribing $5.99"), the claim
predicts type `price`, but the code's currency pattern never sets `type`,
so the later confirmation match sets it to `confirmation`. -/
theorem classification_price_sets_only_price :
    specTypeFirstMatch (fullTextOf emailC8) = some SType.price ∧
    (extractSubscriptionData 0 emailC8).type = some SType.confirmation ∧
    (extractSubscriptionData 0 emailC8).price = some (mkRat 599 100) ∧
    (extractSubscriptionData 0 emailC8).type ≠ specTypeFirstMatch (fullTextOf emailC8) := by
  decide

/-- C8 (amended): `type` is set by the first matching pattern among the
subscription, recurring and confirmation keyword patterns, in the table
order but skipping the currency-amount pattern (which never sets `type`),
while a currency-amount match sets `price` regardless of whether `type`
was already set. -/
theorem classification_type_order (now : Nat) (e : EmailData) :
    (extractSubscriptionData now e).type = typeFromPatterns (fullTextOf e) ∧
    (extractSubscriptionData now e).price = firstPrice (fullTextOf e).data := by
  simp only [extractSubscriptionData, typeFromPatterns]
  cases h1 : patSubscription (fullTextOf e) <;>
    cases h2 : patRecurring (fullTextOf e) <;>
      cases h4 : patConfirm (fullTextOf e) <;>
        simp [h1, h2, h4]

/-- C9: the spec's worked example — subject "Your Netflix subscription
receipt — $15.99" from "billing@netflix.com" extracts to provider
"netflix", type subscription, price 15.99, frequency monthly. -/
theorem netflix_example_extraction (now : Nat) :
    extractSubscriptionData now emailC9 =
      { type := some SType.subscription, price := some (mkRat 1599 100),
        provider := "netflix", frequency := "monthly", lastDetectedDate := now } := by
  rfl

/-- C10: a request missing the bearer Authorization header, the
x-gmail-token header or the x-user-id header gets a 401 for every scan
environment, with no subscriptions returned and the store unchanged (the
result does not depend on the mailbox or store at all). -/
theorem scan_missing_headers_401 (deps : ScanDeps) (req : ScanRequest)
    (h : bearerOk req.authHeader = false ∨ req.gmailToken = none ∨ req.userId = none) :
    (scanEmails deps req).status = 401 ∧ (scanEmails deps req).subscriptions = [] ∧
    (scanEmails deps req).store = deps.store := by
  have hv : validateScanHeaders req ≠ none := by
    unfold validateScanHeaders
    rcases h with hb | hg | hu
    · simp [hb]
    · rw [hg]
      have hnone : strFalsy none = true := rfl
      by_cases hb2 : bearerOk req.authHeader <;> simp [hb2, hnone]
    · rw [hu]
      have hnone : strFalsy none = true := rfl
      by_cases hb2 : bearerOk req.authHeader
      · by_cases hg2 : strFalsy req.gmailToken
        · simp [hb2, hg2]
        · simp [hb2, hg2, hnone]
      · simp [hb2]
  cases hm : validateScanHeaders req with
  | none => exact absurd hm hv
  | some m => simp [scanEmails, hm]

/-- C1 counterexample: in a healthy scan over three messages where only the
fetch of message "b" fails (the others fetch and parse fine), the whole
scan aborts with a 500 and produces no candidates — a single fetch failure
is not isolated to its message. -/
theorem scan_fetch_failure_not_isolated :
    exOk (fetchCex1 "b") = false ∧ exOk (fetchCex1 "a") = true ∧
    exOk (fetchCex1 "c") = true ∧
    (scanEmails depsCex1 reqOk).status = 500 ∧
    (scanEmails depsCex1 reqOk).subscriptions = [] := by
  decide

/-- C1 (amended): per-message failure isolation holds for parsing only —
when every fetch succeeds, an unparseable message is caught and skipped,
the remaining messages still produce their candidates in order, and the
scan completes with a 200; but when any single message's fetch fails, the
whole scan aborts with a 500 (no store write, no candidates). -/
theorem scan_parse_failure_isolated (deps : ScanDeps) (req : ScanRequest)
    (hv : validateScanHeaders req = none) (hdb : deps.dbOk = true)
    (hp : deps.profile = ProfRes.ok) (hs : ∀ k, deps.storeFailsOn k = false) :
    ((∀ id ∈ listMessages deps.msgIds, exOk (deps.fetchMsg id) = true) →
      (scanEmails deps req).status = 200 ∧
      (scanEmails deps req).subscriptions =
        (processFold deps.now (usrId req) ([], []) (scanRaws deps)).2) ∧
    ((∃ id ∈ listMessages deps.msgIds, exOk (deps.fetchMsg id) = false) →
      (scanEmails deps req).status = 500 ∧ (scanEmails deps req).store = deps.store ∧
      (scanEmails deps req).subscriptions = []) := by
  constructor
  · intro hall
    have hflat : ∀ id ∈ (chunks 10 (listMessages deps.msgIds)).flatten,
        exOk (deps.fetchMsg id) = true := by
      rw [chunks_flatten 10 (by norm_num)]
      exact hall
    have hpb := processBatches_of_all_ok deps.fetchMsg deps.now (usrId req)
      (chunks 10 (listMessages deps.msgIds)) ([], []) hflat
    rw [chunks_flatten 10 (by norm_num)] at hpb
    have hper := persistBatches_all_ok deps.storeFailsOn hs
      (chunks 50 (processFold deps.now (usrId req) ([], [])
        ((listMessages deps.msgIds).map (rawOfFetch deps.fetchMsg))).2) 0 deps.store
    constructor
    · simp [scanEmails, hv, hdb, hp, hpb, hper]
    · simp [scanEmails, hv, hdb, hp, hpb, hper, scanRaws]
  · rintro ⟨bad, hmem, hbad⟩
    cases hpb : processBatches deps.fetchMsg deps.now (usrId req)
        (chunks 10 (listMessages deps.msgIds)) ([], []) with
    | error e =>
      refine ⟨?_, ?_, ?_⟩ <;> simp [scanEmails, hv, hdb, hp, hpb]
    | ok st =>
      exfalso
      obtain ⟨_, hok⟩ := processBatches_ok deps.fetchMsg deps.now (usrId req) _ _ _ hpb
      have hco : exOk (deps.fetchMsg bad) = true := by
        apply hok
        rw [chunks_flatten 10 (by norm_num)]
        exact hmem
      rw [hbad] at hco
      simp at hco

/-- C1 witness: a 10-message batch whose message "m7" fetches but cannot be
parsed still produces the other 9 candidates and the scan completes with
a 200. -/
theorem scan_parse_failure_isolated_witness :
    validateScanHeaders reqOk = none ∧ (parseMsg (rawOfFetch fetchW1 "m7")).isNone = true ∧
    (scanEmails depsW1 reqOk).status = 200 ∧ (scanEmails depsW1 reqOk).count = 9 :=
  ⟨by decide, by decide,
   ((scan_parse_failure_isolated depsW1 reqOk (by decide) (by decide) (by decide)
      (fun _ => rfl)).1 (by decide)).1,
   by decide⟩

/-- C2: for every scan, the returned subscription list (the same list fed
to persistence) has pairwise-distinct providers, and each returned row is
exactly the candidate extracted from the first message, in page-listing
order, that resolved to its provider — later candidates for the same
provider are dropped whole, never merged. -/
theorem scan_dedup_first_wins (deps : ScanDeps) (req : ScanRequest) :
    (((scanEmails deps req).subscriptions.map (fun r => r.provider)).Nodup) ∧
    (∀ row ∈ (scanEmails deps req).subscriptions,
      firstCandFor deps.now (usrId req) (scanRaws deps) row.provider = some row) := by
  cases hm : validateScanHeaders req with
  | some m => simp [scanEmails, hm]
  | none =>
    cases hdb : deps.dbOk with
    | false => simp [scanEmails, hm, hdb]
    | true =>
      cases hp : deps.profile with
      | auth401 => simp [scanEmails, hm, hdb, hp]
      | otherErr => simp [scanEmails, hm, hdb, hp]
      | ok =>
        cases hpb : processBatches deps.fetchMsg deps.now (usrId req)
            (chunks 10 (listMessages deps.msgIds)) ([], []) with
        | error e => simp [scanEmails, hm, hdb, hp, hpb]
        | ok st =>
          obtain ⟨hst, _⟩ := processBatches_ok deps.fetchMsg deps.now (usrId req) _ _ _ hpb
          rw [chunks_flatten 10 (by norm_num)] at hst
          obtain ⟨i1, i2, i3⟩ := fold_inv deps.now (usrId req)
            ((listMessages deps.msgIds).map (rawOfFetch deps.fetchMsg)) ([], [])
            (by simp) (by simp)
          cases hw : (persistBatches deps.storeFailsOn (chunks 50 st.2) 0 deps.store).1 with
          | false => simp [scanEmails, hm, hdb, hp, hpb, hw]
          | true =>
            have hsubs : (scanEmails deps req).subscriptions = st.2 := by
              simp [scanEmails, hm, hdb, hp, hpb, hw]
            rw [hsubs]
            subst hst
            constructor
            · rw [← i1]
              exact i2
            · intro row hr
              rcases i3 row hr with h | ⟨_, hf⟩
              · simp at h
              · simpa [scanRaws] using hf

/-- C2 witness: with two netflix messages and one spotify message, the scan
returns one row per provider and the netflix row is the candidate of the
first netflix message. -/
theorem scan_dedup_first_wins_witness :
    firstCandFor depsW2.now (usrId reqOk) (scanRaws depsW2) rowNetflixW.provider =
      some rowNetflixW :=
  (scan_dedup_first_wins depsW2 reqOk).2 rowNetflixW (by decide)

/-- C6 counterexample: a scan whose store already holds a netflix row at
price 9.99 for the same user and whose mailbox yields a netflix candidate
at the different non-null price 15.99 completes with a 200 and emits zero
PriceChanges — not exactly one as claimed (the response carries no
price-change data at all). -/
theorem scan_emits_no_price_change :
    (scanEmails depsC6 reqOk).status = 200 ∧
    ((scanEmails depsC6 reqOk).subscriptions.map (fun r => (r.provider, r.price))) =
      [("netflix", some (mkRat 1599 100))] ∧
    rowOld3 ∈ depsC6.store ∧ rowOld3.provider = "netflix" ∧ rowOld3.user_id = "u" ∧
    usrId reqOk = "u" ∧ rowOld3.price = some (mkRat 999 100) ∧
    some (mkRat 999 100) ≠ some (mkRat 1599 100) ∧
    scanPriceChanges (scanEmails depsC6 reqOk) = [] := by
  decide

/-- C6 (amended): the scan emits no PriceChange whatsoever — its response
carries no price-change data — and the only PriceChange values in the
repository are the hard-coded client-side mock, whose single entry does
satisfy `change = newPrice - oldPrice` and
`percentageChange = round2 (change / oldPrice * 100)`. -/
theorem price_change_only_mock :
    (∀ r : ScanResult, scanPriceChanges r = []) ∧
    (∀ pc ∈ MOCK_PRICE_CHANGES,
      pc.change = pc.newPrice - pc.oldPrice ∧
      pc.percentageChange = round2 (pc.change / pc.oldPrice * 100)) := by
  constructor
  · intro r
    rfl
  · intro pc hpc
    rw [MOCK_PRICE_CHANGES, List.mem_singleton] at hpc
    subst hpc
    constructor
    · show (3 : ℚ) = 5299 / 100 - 4999 / 100
      norm_num
    · show (6 : ℚ) = round2 ((3 : ℚ) / (4999 / 100) * 100)
      rw [round2]
      have hfl : (⌊(3 : ℚ) / (4999 / 100) * 100 * 100 + 1 / 2⌋ : ℤ) = 600 := by
        rw [Int.floor_eq_iff]
        constructor
        · norm_num
        · norm_num
      rw [hfl]
      norm_num

/-- C6 witness: the mock Adobe entry satisfies the amended formulas. -/
theorem price_change_only_mock_witness :
    mockAdobe.change = mockAdobe.newPrice - mockAdobe.oldPrice ∧
    mockAdobe.percentageChange = round2 (mockAdobe.change / mockAdobe.oldPrice * 100) :=
  price_change_only_mock.2 mockAdobe (by simp [MOCK_PRICE_CHANGES])

/-- C10 witness: a request with the Gmail token header missing gets a 401
and writes nothing. -/
theorem scan_missing_headers_401_witness :
    (scanEmails depsCex1 reqBad10).status = 401 ∧
    (scanEmails depsCex1 reqBad10).subscriptions = [] ∧
    (scanEmails depsCex1 reqBad10).store = depsCex1.store :=
  scan_missing_headers_401 depsCex1 reqBad10 (Or.inr (Or.inl rfl))

end Quits
